import Mathlib

/-!
Verification development for the HTTP/1.1 message layer of the
HttpServer-rs repository: the validated header collection
(`crates/http-core/src/headers.rs`), the status-code domain model
(`crates/rin_core/src/status.rs`, identical module re-exported by
http-core), request parsing (`crates/http-core/src/request.rs`) and
response building/serialization (`crates/http-core/src/response.rs`).

The embedding is shallow: Rust byte buffers and strings are modelled as
Lean `String` / `List Char` (the wire data relevant here is ASCII, and a
`Char` stands for one byte), `u16`/`u8` integers as `Nat` with explicit
range hypotheses where they matter, fallible Rust functions as `Except`,
and the `HashMap<HeaderName, HeaderValue>` as a key-unique association
list (iteration order of the Rust map is unspecified, so any
representation of a finite key-unique map is faithful; lookup is exact
string equality on the key, as in the source).
-/

namespace HttpCore

/-! ## Character classes (Rust `char::is_control` / `char::is_whitespace`) -/

/-- Rust `char::is_control`: the Unicode Cc category, i.e. U+0000..U+001F
and U+007F..U+009F. -/
def rustIsControl (c : Char) : Bool :=
  c.toNat < 0x20 || (0x7f ≤ c.toNat && c.toNat ≤ 0x9f)

/-- Rust `char::is_whitespace`: the Unicode White_Space property. -/
def rustIsWhitespace (c : Char) : Bool :=
  (0x09 ≤ c.toNat && c.toNat ≤ 0x0d) || c.toNat == 0x20 || c.toNat == 0x85 ||
  c.toNat == 0xa0 || c.toNat == 0x1680 ||
  (0x2000 ≤ c.toNat && c.toNat ≤ 0x200a) ||
  c.toNat == 0x2028 || c.toNat == 0x2029 || c.toNat == 0x202f ||
  c.toNat == 0x205f || c.toNat == 0x3000

/-- Rust `str::trim`: drop leading and trailing `is_whitespace` characters. -/
def rustTrim (l : List Char) : List Char :=
  ((l.dropWhile rustIsWhitespace).reverse.dropWhile rustIsWhitespace).reverse

/-! ## Headers (`crates/http-core/src/headers.rs`) -/

/-- `HeaderName(String)`: a validated header name token. -/
structure HeaderName where
  str : String
deriving DecidableEq

/-- `HeaderValue(String)`: a validated header value. -/
structure HeaderValue where
  str : String
deriving DecidableEq

/-- `HeaderError`: `InvalidName(String)` or `InvalidValue`. -/
inductive HeaderError where
  | invalidName (s : String)
  | invalidValue
deriving DecidableEq

/-- `impl FromStr for HeaderName`: reject a name that is empty after
trimming, or that contains a control or whitespace character. -/
def HeaderName.from_str (s : String) : Except HeaderError HeaderName :=
  if (rustTrim s.toList).isEmpty || s.toList.any (fun c => rustIsControl c || rustIsWhitespace c) then
    .error (.invalidName s)
  else
    .ok ⟨s⟩

/-- `impl FromStr for HeaderValue`: reject a value containing a control
character other than horizontal tab. -/
def HeaderValue.from_str (s : String) : Except HeaderError HeaderValue :=
  if s.toList.any (fun c => rustIsControl c && c != '\t') then
    .error .invalidValue
  else
    .ok ⟨s⟩

/-- `Headers`: the `HashMap<HeaderName, HeaderValue>` modelled as a
key-unique association list (map iteration order is unspecified in the
source). -/
structure Headers where
  entries : List (HeaderName × HeaderValue)
deriving DecidableEq

/-- `Headers::new`: the empty collection. -/
def Headers.new : Headers := ⟨[]⟩

/-- `HashMap::insert` semantics: store the pair, overwriting any existing
entry with an equal key. -/
def Headers.insertRaw (h : Headers) (n : HeaderName) (v : HeaderValue) : Headers :=
  ⟨(n, v) :: h.entries.filter (fun p => p.1.str != n.str)⟩

/-- `Headers::insert`: validate the name, then the value, then store.
Mirrors `&mut self` by returning the result together with the collection
state after the call: each `?` early-return leaves the map untouched. -/
def Headers.insert (h : Headers) (name value : String) : Except HeaderError Unit × Headers :=
  match HeaderName.from_str name with
  | .error e => (.error e, h)
  | .ok n =>
    match HeaderValue.from_str value with
    | .error e => (.error e, h)
    | .ok v => (.ok (), h.insertRaw n v)

/-- `Headers::get`: build the key from the raw string (no validation) and
look it up by exact equality. -/
def Headers.get (h : Headers) (name : String) : Option HeaderValue :=
  (h.entries.find? (fun p => p.1.str == name)).map (·.2)

/-! ## StatusCode (`crates/rin_core/src/status.rs`) -/

/-- `StatusCode(u16)`. -/
structure StatusCode where
  code : Nat
deriving DecidableEq

/-- `StatusCodeError::InvalidStatusCode(u16)`. -/
inductive StatusCodeError where
  | invalidStatusCode (c : Nat)
deriving DecidableEq

/-- `StatusCode::new`: accept exactly the codes in `[100, 599]`. -/
def StatusCode.new (c : Nat) : Except StatusCodeError StatusCode :=
  if c < 100 || c > 599 then
    .error (.invalidStatusCode c)
  else
    .ok ⟨c⟩

/-- `StatusCode::OK` constant. -/
def StatusCode.OK : StatusCode := ⟨200⟩

/-- `StatusCode::NO_CONTENT` constant. -/
def StatusCode.NO_CONTENT : StatusCode := ⟨204⟩

/-- `StatusCode::reason_phrase`: the fixed reason-phrase table with
fallback "Unknown". -/
def StatusCode.reason_phrase (s : StatusCode) : String :=
  match s.code with
  | 100 => "Continue"
  | 101 => "Switching Protocols"
  | 102 => "Processing"
  | 103 => "Early Hints"
  | 200 => "OK"
  | 201 => "Created"
  | 202 => "Accepted"
  | 203 => "Non-Authoritative Information"
  | 204 => "No Content"
  | 205 => "Reset Content"
  | 206 => "Partial Content"
  | 300 => "Multiple Choices"
  | 301 => "Moved Permanently"
  | 302 => "Found"
  | 303 => "See Other"
  | 304 => "Not Modified"
  | 307 => "Temporary Redirect"
  | 308 => "Permanent Redirect"
  | 400 => "Bad Request"
  | 401 => "Unauthorized"
  | 402 => "Payment Required"
  | 403 => "Forbidden"
  | 404 => "Not Found"
  | 405 => "Method Not Allowed"
  | 406 => "Not Acceptable"
  | 408 => "Request Timeout"
  | 409 => "Conflict"
  | 410 => "Gone"
  | 422 => "Unprocessable Entity"
  | 429 => "Too Many Requests"
  | 500 => "Internal Server Error"
  | 501 => "Not Implemented"
  | 502 => "Bad Gateway"
  | 503 => "Service Unavailable"
  | 504 => "Gateway Timeout"
  | 505 => "HTTP Version Not Supported"
  | _ => "Unknown"

/-- `StatusCode::is_informational`: `100 <= code < 200`. -/
def StatusCode.is_informational (s : StatusCode) : Bool :=
  decide (100 ≤ s.code) && decide (s.code < 200)

/-- `StatusCode::is_success`: `200 <= code < 300`. -/
def StatusCode.is_success (s : StatusCode) : Bool :=
  decide (200 ≤ s.code) && decide (s.code < 300)

/-- `StatusCode::is_redirection`: `300 <= code < 400`. -/
def StatusCode.is_redirection (s : StatusCode) : Bool :=
  decide (300 ≤ s.code) && decide (s.code < 400)

/-- `StatusCode::is_client_error`: `400 <= code < 500`. -/
def StatusCode.is_client_error (s : StatusCode) : Bool :=
  decide (400 ≤ s.code) && decide (s.code < 500)

/-- `StatusCode::is_server_error`: `500 <= code < 600`. -/
def StatusCode.is_server_error (s : StatusCode) : Bool :=
  decide (500 ≤ s.code) && decide (s.code < 600)

/-- `StatusCode::is_error`: `400 <= code < 600`. -/
def StatusCode.is_error (s : StatusCode) : Bool :=
  decide (400 ≤ s.code) && decide (s.code < 600)

/-! ## Response and builder (`crates/http-core/src/response.rs`) -/

/-- `Response { status, version, headers, body }`; the body byte sequence
is modelled as a `String`. -/
structure Response where
  status : StatusCode
  version : Nat × Nat
  headers : Headers
  body : String
deriving DecidableEq

/-- `ResponseError`: a wrapped header error or an I/O error from the
serialization sink. -/
inductive ResponseError where
  | headerError (e : HeaderError)
  | ioError (msg : String)
deriving DecidableEq

/-- `Response::new`: version defaults to HTTP/1.1. -/
def Response.new (status : StatusCode) (headers : Headers) (body : String) : Response :=
  ⟨status, (1, 1), headers, body⟩

/-- One `write!` to the `BytesMut` writer: the sink is an in-memory
growable buffer whose `Write` impl always returns `Ok`, so appending
never fails. -/
def writeStr (w : String) (s : String) : Except ResponseError String :=
  .ok (w ++ s)

/-- The header-writing loop of `Response::to_bytes`: one
`write!(writer, "{}: {}\r\n", name, value)` per stored entry. -/
def writeHeaders (w : String) : List (HeaderName × HeaderValue) → Except ResponseError String
  | [] => .ok w
  | p :: rest =>
    (writeStr w (p.1.str ++ ": " ++ p.2.str ++ "\r\n")).bind fun w' =>
      writeHeaders w' rest

/-- `Response::to_bytes`: status line, then each header, then the blank
line, then the body; every `?` on a write is an `Except` bind. -/
def Response.to_bytes (r : Response) : Except ResponseError String :=
  (writeStr "" ("HTTP/" ++ toString r.version.1 ++ "." ++ toString r.version.2 ++ " " ++
      toString r.status.code ++ " " ++ r.status.reason_phrase ++ "\r\n")).bind fun w =>
  (writeHeaders w r.headers.entries).bind fun w =>
  (writeStr w "\r\n").bind fun w =>
  (writeStr w r.body).bind fun w =>
  .ok w

/-- `ResponseBuilder { status, headers, body: Option<Bytes> }`. -/
structure ResponseBuilder where
  statusAcc : StatusCode
  headers : Headers
  bodyOpt : Option String
deriving DecidableEq

/-- `ResponseBuilder::new`: status OK, empty headers, no body. -/
def ResponseBuilder.new : ResponseBuilder :=
  ⟨StatusCode.OK, Headers.new, none⟩

/-- `ResponseBuilder::status`. -/
def ResponseBuilder.status (b : ResponseBuilder) (s : StatusCode) : ResponseBuilder :=
  { b with statusAcc := s }

/-- `ResponseBuilder::header`: `let _ = self.headers.insert(name, value);`
— the insertion result is discarded, keeping whatever collection state
the insert call left behind. -/
def ResponseBuilder.header (b : ResponseBuilder) (name value : String) : ResponseBuilder :=
  { b with headers := (b.headers.insert name value).2 }

/-- `ResponseBuilder::body`. -/
def ResponseBuilder.body (b : ResponseBuilder) (s : String) : ResponseBuilder :=
  { b with bodyOpt := some s }

/-- `ResponseBuilder::build`: body defaults to empty. -/
def ResponseBuilder.build (b : ResponseBuilder) : Response :=
  Response.new b.statusAcc b.headers (b.bodyOpt.getD "")

/-! ## Request and method (`crates/http-core/src/request.rs`) -/

/-- `Method`: the nine HTTP verbs. -/
inductive Method where
  | GET | POST | PUT | DELETE | HEAD | OPTIONS | PATCH | CONNECT | TRACE
deriving DecidableEq

/-- `impl fmt::Display for Method`. -/
def Method.toStr : Method → String
  | .GET => "GET"
  | .POST => "POST"
  | .PUT => "PUT"
  | .DELETE => "DELETE"
  | .HEAD => "HEAD"
  | .OPTIONS => "OPTIONS"
  | .PATCH => "PATCH"
  | .CONNECT => "CONNECT"
  | .TRACE => "TRACE"

/-- `RequestError`. -/
inductive RequestError where
  | invalidMethod (s : String)
  | invalidRequest
  | headerError (e : HeaderError)
  | parseError (s : String)
deriving DecidableEq

/-- Rust `str::to_uppercase` restricted to its ASCII action (the match
targets are ASCII verbs, so the special multi-character Unicode
uppercasings cannot produce a match and are irrelevant here). -/
def upperStr (s : String) : String :=
  ⟨s.toList.map Char.toUpper⟩

/-- `impl FromStr for Method`: case-insensitive match against the nine
verbs; anything else is `InvalidMethod` carrying the original token. -/
def Method.from_str (s : String) : Except RequestError Method :=
  if upperStr s = "GET" then .ok .GET
  else if upperStr s = "POST" then .ok .POST
  else if upperStr s = "PUT" then .ok .PUT
  else if upperStr s = "DELETE" then .ok .DELETE
  else if upperStr s = "HEAD" then .ok .HEAD
  else if upperStr s = "OPTIONS" then .ok .OPTIONS
  else if upperStr s = "PATCH" then .ok .PATCH
  else if upperStr s = "CONNECT" then .ok .CONNECT
  else if upperStr s = "TRACE" then .ok .TRACE
  else .error (.invalidMethod s)

/-- `Request { method, uri, version, headers, body }`. -/
structure Request where
  method : Method
  uri : String
  version : Nat × Nat
  headers : Headers
  body : String
deriving DecidableEq

/-! ## Model of the `httparse` dependency

`parse_request` delegates request-head parsing to the external `httparse`
crate with a 64-slot header array. The model below captures the behavior
the wrapper depends on: a complete head is everything up to the first
`\r\n\r\n` (if absent, the parse is `Partial`); the request line is
`<method> <path> HTTP/1.<0|1>`; each header line is `<name>: <value>`
with the name a non-empty token free of whitespace/control characters
and the value taken after skipping leading spaces and tabs; exceeding
the header-slot capacity is a `TooManyHeaders` error rather than a
truncation. (Liberal corners of httparse that the wrapper and the spec
never exercise — bare-LF line endings, skipping of leading empty lines —
are not modelled.) -/

/-- Split the buffer at the first `\r\n\r\n`: returns the head content
(terminator excluded) and the total parsed length (terminator included),
or `none` when the head is incomplete. -/
def findHead : List Char → Option (List Char × Nat)
  | '\r' :: '\n' :: '\r' :: '\n' :: _ => some ([], 4)
  | c :: rest => (findHead rest).map (fun p => (c :: p.1, p.2 + 1))
  | [] => none

/-- Split a character list on a separator character (used with `\r\n`
handled separately and with spaces / colons below). -/
def splitLinesAux : List Char → List Char → List (List Char)
  | [], acc => [acc.reverse]
  | '\r' :: '\n' :: rest, acc => acc.reverse :: splitLinesAux rest []
  | c :: rest, acc => splitLinesAux rest (c :: acc)

/-- Split the head into its `\r\n`-terminated lines. -/
def splitLines (l : List Char) : List (List Char) :=
  splitLinesAux l []

/-- Split a line on the space character. -/
def splitSpacesAux : List Char → List Char → List (List Char)
  | [], acc => [acc.reverse]
  | ' ' :: rest, acc => acc.reverse :: splitSpacesAux rest []
  | c :: rest, acc => splitSpacesAux rest (c :: acc)

/-- Split a request line into its space-separated parts. -/
def splitSpaces (l : List Char) : List (List Char) :=
  splitSpacesAux l []

/-- Split a header line at the first colon: `(name, rest-after-colon)`. -/
def breakColon : List Char → Option (List Char × List Char)
  | [] => none
  | ':' :: rest => some ([], rest)
  | c :: rest => (breakColon rest).map (fun p => (c :: p.1, p.2))

/-- Parse the request line: method, path, and HTTP/1.x minor version
(httparse accepts exactly `HTTP/1.0` and `HTTP/1.1`). -/
def parseRequestLine (l : List Char) : Except String (String × String × Nat) :=
  match splitSpaces l with
  | [m, p, v] =>
    if m.isEmpty then .error "invalid token" else
    if p.isEmpty then .error "invalid URI" else
    if v = "HTTP/1.1".toList then .ok (⟨m⟩, ⟨p⟩, 1)
    else if v = "HTTP/1.0".toList then .ok (⟨m⟩, ⟨p⟩, 0)
    else .error "invalid HTTP version"
  | _ => .error "invalid request line"

/-- Parse one header line: non-empty name free of whitespace and control
characters, then the value after the colon with leading spaces and tabs
skipped. -/
def parseHeaderLine (l : List Char) : Except String (String × String) :=
  match breakColon l with
  | none => .error "invalid header line"
  | some (name, rest) =>
    if name.isEmpty then .error "invalid header name" else
    if name.any (fun c => rustIsControl c || rustIsWhitespace c) then
      .error "invalid header name"
    else
      .ok (⟨name⟩, ⟨rest.dropWhile (fun c => c == ' ' || c == '\t')⟩)

/-- Parse the header lines with the remaining slot capacity: running out
of slots while lines remain is a `TooManyHeaders` error. -/
def parseHeaderLines : List (List Char) → Nat → Except String (List (String × String))
  | [], _ => .ok []
  | l :: rest, cap =>
    if cap = 0 then .error "too many headers"
    else
      (parseHeaderLine l).bind fun p =>
        (parseHeaderLines rest (cap - 1)).map (fun ps => p :: ps)

/-- Result of `httparse::Request::parse` on a buffer: a complete head
(method, path, minor version, header pairs, parsed length) or a partial
one. -/
inductive HttparseStatus where
  | complete (method path : String) (minor : Nat)
      (headers : List (String × String)) (len : Nat)
  | incomplete
deriving DecidableEq

/-- `httparse::Request::parse` with a `maxHeaders`-slot header array. -/
def httparseParse (data : List Char) (maxHeaders : Nat) : Except String HttparseStatus :=
  match findHead data with
  | none => .ok .incomplete
  | some (head, plen) =>
    match splitLines head with
    | [] => .error "empty head"
    | reqline :: headerLines =>
      (parseRequestLine reqline).bind fun t =>
        (parseHeaderLines headerLines maxHeaders).map fun hs =>
          .complete t.1 t.2.1 t.2.2 hs plen

/-! ## `parse_request` (`crates/http-core/src/request.rs`) -/

/-- The header-ingestion loop of `parse_request`: insert each parsed pair
into a fresh collection, surfacing the first validation failure as a
wrapped header error. (Header values arrive as characters in this
embedding, so the UTF-8 well-formedness check of the source is vacuous.) -/
def insertAll (h : Headers) : List (String × String) → Except RequestError Headers
  | [] => .ok h
  | (n, v) :: rest =>
    match h.insert n v with
    | (.error e, _) => .error (.headerError e)
    | (.ok _, h') => insertAll h' rest

/-- `parse_request`: parse the head with a 64-header budget, reject
partial or malformed heads, decode method/URI/version, ingest the
headers, and take every byte past the head as the body. -/
def parse_request (data : List Char) : Except RequestError Request :=
  match httparseParse data 64 with
  | .error e => .error (.parseError e)
  | .ok .incomplete => .error (.parseError "Incomplete request")
  | .ok (.complete m p v hs plen) =>
    (Method.from_str m).bind fun method =>
      (insertAll Headers.new hs).bind fun headers =>
        .ok { method := method
              uri := p
              version := (1, if v = 1 then 1 else 0)
              headers := headers
              body := ⟨data.drop plen⟩ }

/-- Number of header lines in the request head of a buffer: everything
between the request line and the `\r\n\r\n` terminator (0 when no
complete head is present). -/
def headerLineCount (data : List Char) : Nat :=
  match findHead data with
  | none => 0
  | some (head, _) => (splitLines head).length - 1

end HttpCore

deriving instance DecidableEq for Except

namespace HttpCore

/-! ## Helper lemmas -/

lemma headerName_from_str_cases (s : String) :
    HeaderName.from_str s = .ok ⟨s⟩ ∨ HeaderName.from_str s = .error (.invalidName s) := by
  unfold HeaderName.from_str
  split
  · exact .inr rfl
  · exact .inl rfl

lemma headerValue_from_str_cases (s : String) :
    HeaderValue.from_str s = .ok ⟨s⟩ ∨ HeaderValue.from_str s = .error .invalidValue := by
  unfold HeaderValue.from_str
  split
  · exact .inr rfl
  · exact .inl rfl

lemma find?_filter_of_imp (l : List (HeaderName × HeaderValue))
    (p q : HeaderName × HeaderValue → Bool) (hpq : ∀ x, p x = true → q x = true) :
    (l.filter q).find? p = l.find? p := by
  induction l with
  | nil => rfl
  | cons a t ih =>
    by_cases hq : q a = true
    · rw [List.filter_cons_of_pos hq]
      by_cases hp : p a = true
      · rw [List.find?_cons_of_pos _ hp, List.find?_cons_of_pos _ hp]
      · rw [List.find?_cons_of_neg _ (by simpa using hp),
          List.find?_cons_of_neg _ (by simpa using hp), ih]
    · have hp : ¬p a = true := fun h => hq (hpq a h)
      rw [List.filter_cons_of_neg (by simpa using hq),
        List.find?_cons_of_neg _ (by simpa using hp), ih]

lemma get_insertRaw_self (h : Headers) (n : HeaderName) (v : HeaderValue) :
    (h.insertRaw n v).get n.str = some v := by
  simp [Headers.get, Headers.insertRaw, List.find?]

lemma get_insertRaw_ne (h : Headers) (n : HeaderName) (v : HeaderValue) (m : String)
    (hm : m ≠ n.str) :
    (h.insertRaw n v).get m = h.get m := by
  simp only [Headers.get, Headers.insertRaw]
  rw [List.find?_cons_of_neg _ (by simpa using fun he => hm he.symm)]
  rw [find?_filter_of_imp]
  intro x hx
  simp only [beq_iff_eq] at hx
  rw [hx]
  simpa [bne_iff_ne] using hm

lemma writeHeaders_isOk (l : List (HeaderName × HeaderValue)) (w : String) :
    ∃ s, writeHeaders w l = .ok s := by
  induction l generalizing w with
  | nil => exact ⟨w, rfl⟩
  | cons p rest ih =>
    obtain ⟨s, hs⟩ := ih (w ++ (p.1.str ++ ": " ++ p.2.str ++ "\r\n"))
    exact ⟨s, by simp [writeHeaders, writeStr, Except.bind, hs]⟩

lemma parseHeaderLines_err (lines : List (List Char)) (cap : Nat)
    (hcap : cap < lines.length) :
    ∃ e, parseHeaderLines lines cap = .error e := by
  induction lines generalizing cap with
  | nil => exact absurd hcap (Nat.not_lt_zero _)
  | cons l rest ih =>
    by_cases hc : cap = 0
    · exact ⟨"too many headers", by simp [parseHeaderLines, hc]⟩
    · cases hl : parseHeaderLine l with
      | error e =>
        exact ⟨e, by simp [parseHeaderLines, hc, hl, Except.bind]⟩
      | ok p =>
        obtain ⟨e, he⟩ := ih (cap - 1) (by simp at hcap; omega)
        exact ⟨e, by simp [parseHeaderLines, hc, hl, he, Except.bind, Except.map]⟩

/-! ## Claim theorems -/

/-- C1: parsing `"GET /hello?x=1 HTTP/1.1\r\nHost: example.com\r\n\r\nBODY"`
returns `Ok` with method GET, uri `"/hello?x=1"`, version `(1,1)`, a
headers collection in which `"Host"` looks up to `"example.com"`, and
body `"BODY"`. -/
theorem claim_C1 :
    parse_request (String.toList "GET /hello?x=1 HTTP/1.1\r\nHost: example.com\r\n\r\nBODY") =
      .ok { method := .GET, uri := "/hello?x=1", version := (1, 1),
            headers := ⟨[(⟨"Host"⟩, ⟨"example.com"⟩)]⟩, body := "BODY" } ∧
    (Headers.mk [(⟨"Host"⟩, ⟨"example.com"⟩)]).get "Host" = some ⟨"example.com"⟩ := by
  decide

/-- C2 (amended): for every builder and every (name, value) pair that
fails header validation, `header` returns the builder completely
unchanged (status, headers, body); consequently, if no entry under that
name was previously inserted, lookup of the name in the built response
yields `none`. -/
theorem claim_C2 (b : ResponseBuilder) (name value : String)
    (hbad : (∃ e, HeaderName.from_str name = .error e) ∨
            (∃ e, HeaderValue.from_str value = .error e)) :
    b.header name value = b ∧
    (b.headers.get name = none → (b.header name value).build.headers.get name = none) := by
  have hunch : b.header name value = b := by
    rcases hbad with ⟨e, he⟩ | ⟨e, he⟩
    · simp [ResponseBuilder.header, Headers.insert, he]
    · rcases headerName_from_str_cases name with hn | hn <;>
        simp [ResponseBuilder.header, Headers.insert, hn, he]
  refine ⟨hunch, fun hnone => ?_⟩
  rw [hunch]
  exact hnone

/-- C2 counterexample to the claim as stated: the pair
`("X-A", "b\x00")` fails header validation (control character in the
value), yet after inserting `"X-A" → "ok"` first, the built response
still maps `"X-A"` to `"ok"` — lookup does not yield `None`. -/
theorem claim_C2_counterexample :
    HeaderValue.from_str "b\x00" = .error .invalidValue ∧
    ((ResponseBuilder.new.header "X-A" "ok").header "X-A" "b\x00").build.headers.get "X-A" =
      some ⟨"ok"⟩ := by
  decide

/-- C2 witness: the invalid name `"Bad Name"` (contains a space) leaves a
fresh builder unchanged. -/
theorem claim_C2_witness :
    ((∃ e, HeaderName.from_str "Bad Name" = .error e) ∨
     (∃ e, HeaderValue.from_str "x" = .error e)) ∧
    (ResponseBuilder.new.header "Bad Name" "x" = ResponseBuilder.new ∧
     (ResponseBuilder.new.headers.get "Bad Name" = none →
      (ResponseBuilder.new.header "Bad Name" "x").build.headers.get "Bad Name" = none)) :=
  ⟨.inl ⟨.invalidName "Bad Name", by decide⟩,
   claim_C2 ResponseBuilder.new "Bad Name" "x" (.inl ⟨.invalidName "Bad Name", by decide⟩)⟩

/-- C3: for every valid header name (non-empty after trimming, no
control or whitespace characters) and valid value (no control characters
other than tab), `insert` returns `Ok` and a subsequent `get` of that
name returns exactly the inserted value. -/
theorem claim_C3 (h : Headers) (name value : String)
    (hn1 : (rustTrim name.toList).isEmpty = false)
    (hn2 : name.toList.any (fun c => rustIsControl c || rustIsWhitespace c) = false)
    (hv : value.toList.any (fun c => rustIsControl c && c != '\t') = false) :
    (h.insert name value).1 = .ok () ∧
    (h.insert name value).2.get name = some ⟨value⟩ := by
  have hn : HeaderName.from_str name = .ok ⟨name⟩ := by
    unfold HeaderName.from_str
    rw [if_neg (by rw [hn1, hn2]; exact Bool.false_ne_true)]
  have hvv : HeaderValue.from_str value = .ok ⟨value⟩ := by
    unfold HeaderValue.from_str
    rw [if_neg (by rw [hv]; exact Bool.false_ne_true)]
  refine ⟨by simp [Headers.insert, hn, hvv], ?_⟩
  simp only [Headers.insert, hn, hvv]
  exact get_insertRaw_self h ⟨name⟩ ⟨value⟩

/-- C3 witness: inserting `("Host", "example.com")` into the empty
collection succeeds and `get "Host"` returns the inserted value. -/
theorem claim_C3_witness :
    ((rustTrim "Host".toList).isEmpty = false ∧
     "Host".toList.any (fun c => rustIsControl c || rustIsWhitespace c) = false ∧
     "example.com".toList.any (fun c => rustIsControl c && c != '\t') = false) ∧
    ((Headers.new.insert "Host" "example.com").1 = .ok () ∧
     (Headers.new.insert "Host" "example.com").2.get "Host" = some ⟨"example.com"⟩) :=
  ⟨⟨by decide, by decide, by decide⟩,
   claim_C3 Headers.new "Host" "example.com" (by decide) (by decide) (by decide)⟩

/-- C4: building a response with status 204, the single header
`Content-Type: application/json` and no body, then serializing, yields
exactly `"HTTP/1.1 204 No Content\r\nContent-Type: application/json\r\n\r\n"`. -/
theorem claim_C4 :
    ((ResponseBuilder.new.status StatusCode.NO_CONTENT).header
        "Content-Type" "application/json").build.to_bytes =
      .ok "HTTP/1.1 204 No Content\r\nContent-Type: application/json\r\n\r\n" := by
  decide

/-- C5: for every u16 code, `StatusCode::new` succeeds iff
`100 ≤ code ≤ 599`, failing with `InvalidStatusCode(code)` otherwise,
and on success the stored numeric code is exactly the argument. -/
theorem claim_C5 (code : Nat) (hword : code < 65536) :
    (StatusCode.new code = .ok ⟨code⟩ ↔ (100 ≤ code ∧ code ≤ 599)) ∧
    ((code < 100 ∨ 599 < code) → StatusCode.new code = .error (.invalidStatusCode code)) ∧
    (∀ s, StatusCode.new code = .ok s → s.code = code) := by
  by_cases hc : code < 100 ∨ 599 < code
  · have herr : StatusCode.new code = .error (.invalidStatusCode code) := by
      unfold StatusCode.new
      rw [if_pos (by simp; omega)]
    exact ⟨⟨(fun h => by rw [herr] at h; cases h), (fun h => by omega)⟩,
      (fun _ => herr), (fun s h => by rw [herr] at h; cases h)⟩
  · have hok : StatusCode.new code = .ok ⟨code⟩ := by
      unfold StatusCode.new
      rw [if_neg (by simp; omega)]
    exact ⟨⟨(fun _ => by omega), (fun _ => hok)⟩, (fun h => absurd h hc),
      (fun s h => by rw [hok] at h; cases h; rfl)⟩

/-- C5 witness: instantiated at the boundary code 99, which is rejected. -/
theorem claim_C5_witness :
    99 < 65536 ∧
    ((StatusCode.new 99 = .ok ⟨99⟩ ↔ (100 ≤ 99 ∧ 99 ≤ 599)) ∧
     ((99 < 100 ∨ 599 < 99) → StatusCode.new 99 = .error (.invalidStatusCode 99)) ∧
     (∀ s, StatusCode.new 99 = .ok s → s.code = 99)) :=
  ⟨by decide, claim_C5 99 (by decide)⟩

/-- C6: an input whose complete request head contains more than 64
header lines fails to parse — `parse_request` returns a `ParseError`
rather than a request with a truncated header collection. -/
theorem claim_C6 (data : List Char) (hmany : 64 < headerLineCount data) :
    ∃ e, parse_request data = .error (.parseError e) := by
  unfold headerLineCount at hmany
  cases hf : findHead data with
  | none => rw [hf] at hmany; exact absurd hmany (by simp)
  | some pr =>
    obtain ⟨head, plen⟩ := pr
    have hmany' : 64 < (splitLines head).length - 1 := by rw [hf] at hmany; exact hmany
    have herr : ∃ e, httparseParse data 64 = .error e := by
      simp only [httparseParse, hf]
      cases hs : splitLines head with
      | nil => exact ⟨"empty head", rfl⟩
      | cons reqline hls =>
        rw [hs] at hmany'
        simp only [List.length_cons, Nat.add_sub_cancel] at hmany'
        cases hr : parseRequestLine reqline with
        | error e => exact ⟨e, by simp [Except.bind, hr]⟩
        | ok t =>
          obtain ⟨e, he⟩ := parseHeaderLines_err hls 64 hmany'
          exact ⟨e, by simp [Except.bind, hr, he, Except.map]⟩
    obtain ⟨e, he⟩ := herr
    exact ⟨e, by unfold parse_request; rw [he]⟩

/-- C6 witness data: a well-formed head carrying 65 header lines. -/
def manyHeaderData : List Char :=
  String.toList ("GET / HTTP/1.1\r\n" ++ String.join (List.replicate 65 "A: b\r\n") ++ "\r\n")

set_option maxRecDepth 16384 in
/-- C6 witness: the 65-header input indeed exceeds the bound and fails
to parse. -/
theorem claim_C6_witness :
    64 < headerLineCount manyHeaderData ∧
    ∃ e, parse_request manyHeaderData = .error (.parseError e) :=
  ⟨by decide, claim_C6 manyHeaderData (by decide)⟩

/-- C7: `Headers::insert` either fails with `InvalidName(name)` or
`InvalidValue` leaving the collection exactly as it was, or succeeds and
stores the value under the name, overwriting any prior entry with an
equal name and leaving all other names untouched. -/
theorem claim_C7 (h : Headers) (name value : String) :
    (∀ e, (h.insert name value).1 = .error e →
      (e = .invalidName name ∨ e = .invalidValue) ∧ (h.insert name value).2 = h) ∧
    ((h.insert name value).1 = .ok () →
      (h.insert name value).2.get name = some ⟨value⟩ ∧
      ∀ m, m ≠ name → (h.insert name value).2.get m = h.get m) := by
  rcases headerName_from_str_cases name with hn | hn
  · rcases headerValue_from_str_cases value with hv | hv
    · refine ⟨fun e he => ?_, fun _ => ?_⟩
      · simp [Headers.insert, hn, hv] at he
      · simp only [Headers.insert, hn, hv]
        exact ⟨get_insertRaw_self h ⟨name⟩ ⟨value⟩,
          fun m hm => get_insertRaw_ne h ⟨name⟩ ⟨value⟩ m hm⟩
    · refine ⟨fun e he => ?_, fun hok => ?_⟩
      · simp only [Headers.insert, hn, hv] at he ⊢
        simp at he
        exact ⟨.inr he.symm, by simp [Headers.insert, hn, hv]⟩
      · simp [Headers.insert, hn, hv] at hok
  · refine ⟨fun e he => ?_, fun hok => ?_⟩
    · simp only [Headers.insert, hn] at he ⊢
      simp at he
      exact ⟨.inl he.symm, by simp [Headers.insert, hn]⟩
    · simp [Headers.insert, hn] at hok

/-- C7 witness: a successful insert of `("A", "x")` into the empty
collection stores the value. -/
theorem claim_C7_witness :
    (Headers.new.insert "A" "x").1 = .ok () ∧
    (Headers.new.insert "A" "x").2.get "A" = some ⟨"x"⟩ :=
  ⟨by decide, ((claim_C7 Headers.new "A" "x").2 (by decide)).1⟩

/-- C8: for every code in `[100, 599]` the five class predicates hold on
exactly their hundred-blocks, are pairwise disjoint, and `is_error`
holds iff `is_client_error` or `is_server_error` does. -/
theorem claim_C8 (c : Nat) (hlo : 100 ≤ c) (hhi : c ≤ 599) :
    ((StatusCode.mk c).is_informational = true ↔ (100 ≤ c ∧ c ≤ 199)) ∧
    ((StatusCode.mk c).is_success = true ↔ (200 ≤ c ∧ c ≤ 299)) ∧
    ((StatusCode.mk c).is_redirection = true ↔ (300 ≤ c ∧ c ≤ 399)) ∧
    ((StatusCode.mk c).is_client_error = true ↔ (400 ≤ c ∧ c ≤ 499)) ∧
    ((StatusCode.mk c).is_server_error = true ↔ (500 ≤ c ∧ c ≤ 599)) ∧
    ((StatusCode.mk c).is_informational = true →
      (StatusCode.mk c).is_success = false ∧ (StatusCode.mk c).is_redirection = false ∧
      (StatusCode.mk c).is_client_error = false ∧ (StatusCode.mk c).is_server_error = false) ∧
    ((StatusCode.mk c).is_success = true →
      (StatusCode.mk c).is_redirection = false ∧
      (StatusCode.mk c).is_client_error = false ∧ (StatusCode.mk c).is_server_error = false) ∧
    ((StatusCode.mk c).is_redirection = true →
      (StatusCode.mk c).is_client_error = false ∧ (StatusCode.mk c).is_server_error = false) ∧
    ((StatusCode.mk c).is_client_error = true → (StatusCode.mk c).is_server_error = false) ∧
    ((StatusCode.mk c).is_error = true ↔
      ((StatusCode.mk c).is_client_error = true ∨ (StatusCode.mk c).is_server_error = true)) := by
  simp only [StatusCode.is_informational, StatusCode.is_success, StatusCode.is_redirection,
    StatusCode.is_client_error, StatusCode.is_server_error, StatusCode.is_error,
    Bool.and_eq_true, Bool.and_eq_false_iff, decide_eq_true_eq, decide_eq_false_iff_not]
  omega

/-- C8 witness: instantiated at code 404, a client error. -/
theorem claim_C8_witness :
    (100 ≤ 404 ∧ 404 ≤ 599) ∧
    (((StatusCode.mk 404).is_client_error = true ↔ (400 ≤ 404 ∧ 404 ≤ 499)) ∧
     ((StatusCode.mk 404).is_client_error = true → (StatusCode.mk 404).is_server_error = false) ∧
     ((StatusCode.mk 404).is_error = true ↔
       ((StatusCode.mk 404).is_client_error = true ∨
        (StatusCode.mk 404).is_server_error = true))) :=
  ⟨⟨by decide, by decide⟩,
   ⟨(claim_C8 404 (by decide) (by decide)).2.2.2.1,
    (claim_C8 404 (by decide) (by decide)).2.2.2.2.2.2.2.2.1,
    (claim_C8 404 (by decide) (by decide)).2.2.2.2.2.2.2.2.2⟩⟩

/-- C9: method construction succeeds exactly when the token matches one
of the nine verbs case-insensitively, failing with `InvalidMethod`
carrying the original token otherwise; `"get"` and `"GeT"` both yield
GET, and parsing `"FOO / HTTP/1.1\r\n\r\n"` fails with
`InvalidMethod("FOO")`. -/
theorem claim_C9 :
    (∀ s : String,
      (∃ m : Method, upperStr s = m.toStr ∧ Method.from_str s = .ok m) ∨
      ((∀ m : Method, upperStr s ≠ m.toStr) ∧
        Method.from_str s = .error (.invalidMethod s))) ∧
    Method.from_str "get" = .ok .GET ∧
    Method.from_str "GeT" = .ok .GET ∧
    parse_request (String.toList "FOO / HTTP/1.1\r\n\r\n") = .error (.invalidMethod "FOO") := by
  refine ⟨fun s => ?_, by decide, by decide, by decide⟩
  by_cases h1 : upperStr s = "GET"
  · exact .inl ⟨.GET, h1, by simp [Method.from_str, h1]⟩
  by_cases h2 : upperStr s = "POST"
  · exact .inl ⟨.POST, h2, by simp [Method.from_str, h1, h2]⟩
  by_cases h3 : upperStr s = "PUT"
  · exact .inl ⟨.PUT, h3, by simp [Method.from_str, h1, h2, h3]⟩
  by_cases h4 : upperStr s = "DELETE"
  · exact .inl ⟨.DELETE, h4, by simp [Method.from_str, h1, h2, h3, h4]⟩
  by_cases h5 : upperStr s = "HEAD"
  · exact .inl ⟨.HEAD, h5, by simp [Method.from_str, h1, h2, h3, h4, h5]⟩
  by_cases h6 : upperStr s = "OPTIONS"
  · exact .inl ⟨.OPTIONS, h6, by simp [Method.from_str, h1, h2, h3, h4, h5, h6]⟩
  by_cases h7 : upperStr s = "PATCH"
  · exact .inl ⟨.PATCH, h7, by simp [Method.from_str, h1, h2, h3, h4, h5, h6, h7]⟩
  by_cases h8 : upperStr s = "CONNECT"
  · exact .inl ⟨.CONNECT, h8, by simp [Method.from_str, h1, h2, h3, h4, h5, h6, h7, h8]⟩
  by_cases h9 : upperStr s = "TRACE"
  · exact .inl ⟨.TRACE, h9, by simp [Method.from_str, h1, h2, h3, h4, h5, h6, h7, h8, h9]⟩
  refine .inr ⟨fun m => ?_, by simp [Method.from_str, h1, h2, h3, h4, h5, h6, h7, h8, h9]⟩
  cases m with
  | GET => exact h1
  | POST => exact h2
  | PUT => exact h3
  | DELETE => exact h4
  | HEAD => exact h5
  | OPTIONS => exact h6
  | PATCH => exact h7
  | CONNECT => exact h8
  | TRACE => exact h9

/-- C9 witness: the lowercase token `"get"` is accepted as GET. -/
theorem claim_C9_witness : Method.from_str "get" = .ok .GET :=
  claim_C9.2.1

/-- C10: response serialization never takes the I/O-error branch: for
every response value, `to_bytes` returns `Ok`, since every write targets
the in-memory growable buffer whose writes always succeed. -/
theorem claim_C10 (r : Response) : (r.to_bytes).isOk = true := by
  unfold Response.to_bytes
  dsimp only [writeStr, Except.bind]
  obtain ⟨s, hs⟩ := writeHeaders_isOk r.headers.entries
    ("" ++ ("HTTP/" ++ toString r.version.1 ++ "." ++ toString r.version.2 ++ " " ++
      toString r.status.code ++ " " ++ r.status.reason_phrase ++ "\r\n"))
  rw [hs]
  rfl

/-- C10 witness: serialization of a plain `200 OK` response succeeds. -/
theorem claim_C10_witness : ((Response.new StatusCode.OK Headers.new "").to_bytes).isOk = true :=
  claim_C10 (Response.new StatusCode.OK Headers.new "")

end HttpCore
